import Mathlib

/-!
Shallow embedding of `scripts/export_layers.py`.

The script batches a local vector layer, uploads each batch to a remote
geoprocessing platform as an asset, waits for the asynchronous export tasks,
merges the batch assets into one collection, filters out features with empty
coordinate lists, exports the merged collection and finally deletes the
per-batch assets.

Remote interactions are modelled by oracles passed as arguments:
* `probe`   : the asset-metadata probe used by `assets_exists`
              (`ee.data.getAsset`), which may fail;
* `ex`      : the asset-existence predicate used by the uploader;
* `fetch`   : the contents of a remote asset as a feature list
              (`ee.FeatureCollection(asset_id)`);
* `finalState` : the stable terminal state of an export task;
* `del`     : the outcome of `ee.data.deleteAsset`.

Features are `EEFeature`: a geometry coordinate list plus a property map.
Remote `merge` is list concatenation, which is exactly the server contract
(order-preserving concatenation, no deduplication).
-/

namespace ExportLayers

/-- A remote export task handle: its polled state (a string, as returned by
`task.status()['state']`) at each poll round, and its description. -/
structure EETask where
  state : Nat → String
  description : String

/-- The three terminal states recognised by `wait_for_tasks`
(line 36 of `export_layers.py`). -/
def terminalStates : List String := ["COMPLETED", "FAILED", "CANCELLED"]

/-- `all(task.status()['state'] in [...] for task in task_list)` at poll `t`. -/
def allTerminal (ts : List EETask) (t : Nat) : Bool :=
  ts.all fun task => decide (task.state t ∈ terminalStates)

/-- Lines 41-44: after the polling loop breaks, collect the FAILED tasks and
raise an aggregated exception naming every failed task's description. -/
def checkFailed (ts : List EETask) (t : Nat) : Except String Unit :=
  let failed := ts.filter fun task => task.state t == "FAILED"
  if failed.isEmpty then Except.ok ()
  else Except.error ("The following tasks failed: " ++
    String.intercalate ", " (failed.map EETask.description))

/-- The `while True` polling loop of `wait_for_tasks`, with fuel: `none` means
the loop is still polling after `fuel` rounds (the real loop has no timeout).
On success it returns the raised-or-ok outcome together with the poll round at
which every task was terminal, which equals the number of 10-second sleeps
performed. -/
def waitGo (ts : List EETask) : Nat → Nat → Option (Except String Unit × Nat)
  | 0, _ => none
  | fuel + 1, t =>
    if allTerminal ts t then some (checkFailed ts t, t)
    else waitGo ts fuel (t + 1)

/-- `wait_for_tasks(task_list)` (lines 34-44), polling from round 0. -/
def wait_for_tasks (ts : List EETask) (fuel : Nat) : Option (Except String Unit × Nat) :=
  waitGo ts fuel 0

/-- `assets_exists(asset_id)` (lines 12-18): `True` when `ee.data.getAsset`
succeeds, `False` when it raises any exception. -/
def assets_exists (probe : String → Except String String) (asset_id : String) : Bool :=
  match probe asset_id with
  | Except.ok _ => true
  | Except.error _ => false

/-! ### Geometry sanitizer (`remove_z`, lines 20-26)

Shapely geometries have a uniform coordinate dimension, so a geometry is
either 2D (pairs) or 3D (triples); `has_z` distinguishes them. Geometry
types other than `Polygon` and `MultiPolygon` are collapsed into `other`,
which records only the type tag and whether the geometry carries z values,
since `remove_z` never inspects them further. -/

/-- A polygon's rings: one exterior ring and a list of interior (hole) rings,
with 2D coordinates. -/
structure Poly2 where
  exterior : List (Int × Int)
  interiors : List (List (Int × Int))
  deriving DecidableEq

/-- A polygon's rings with 3D coordinates. -/
structure Poly3 where
  exterior : List (Int × Int × Int)
  interiors : List (List (Int × Int × Int))
  deriving DecidableEq

/-- A shapely geometry as seen by `remove_z`. -/
inductive PyGeometry where
  | polygon2 (p : Poly2)
  | polygon3 (p : Poly3)
  | multiPolygon2 (ps : List Poly2)
  | multiPolygon3 (ps : List Poly3)
  | other (typeTag : String) (hasZ : Bool)
  deriving DecidableEq

/-- `geometry.has_z`. -/
def PyGeometry.has_z : PyGeometry → Bool
  | .polygon2 _ => false
  | .polygon3 _ => true
  | .multiPolygon2 _ => false
  | .multiPolygon3 _ => true
  | .other _ hz => hz

/-- `(x, y) for x, y, z in coords`: drop the z component of one coordinate. -/
def dropZ (c : Int × Int × Int) : Int × Int :=
  (c.1, c.2.1)

/-- Rebuild one polygon without z values
(`Polygon([(x, y) for x, y, z in ...], [...])`). -/
def dropZPoly (p : Poly3) : Poly2 :=
  { exterior := p.exterior.map dropZ
    interiors := p.interiors.map (List.map dropZ) }

/-- `remove_z(geometry)` (lines 20-26): if the geometry has z values and is a
polygon (resp. multipolygon), rebuild it from 2D coordinates; every other
geometry is returned unchanged. -/
def remove_z : PyGeometry → PyGeometry
  | .polygon3 p => .polygon2 (dropZPoly p)
  | .multiPolygon3 ps => .multiPolygon2 (ps.map dropZPoly)
  | g => g

/-! ### Features and the emptiness filter (lines 28-32 and 109-110) -/

/-- A remote feature: its geometry's coordinate list (whose elements are
opaque nested coordinate data) and its property map, with the remote
boolean-as-integer encoding for property values. -/
structure EEFeature where
  coordinates : List (List Int)
  props : List (String × Int)
  deriving DecidableEq

/-- Property lookup (first binding wins, as the most recent `set` shadows). -/
def getProp (f : EEFeature) (k : String) : Option Int :=
  f.props.lookup k

/-- `check_empty_coordinates(feature)` (lines 28-32): tag the feature with
`empty_buffer = coordinates.size().eq(0)`, the remote comparison yielding the
integer 1 when the coordinate list is empty and 0 otherwise. -/
def check_empty_coordinates (f : EEFeature) : EEFeature :=
  { f with props := ("empty_buffer", if f.coordinates.length = 0 then (1 : Int) else 0) :: f.props }

/-- Lines 109-110: tag every feature of the merged collection, then keep the
features whose `empty_buffer` property equals 0. -/
def emptinessFilter (fc : List EEFeature) : List EEFeature :=
  (fc.map check_empty_coordinates).filter fun f => getProp f "empty_buffer" == some 0

/-! ### Batch uploader (`process_layer`, lines 73-99) -/

/-- `math.ceil(n / 500)` for the fixed batch size 500 (line 75). -/
def num_batches (n : Nat) : Nat :=
  (n + 499) / 500

/-- Chunking loop with explicit fuel. Every step consumes at least the head
element, so `fuel = l.length` always suffices; the fuel only serves as a
structural termination measure. -/
def chunksOfAux (n : Nat) : Nat → List α → List (List α)
  | 0, _ => []
  | _, [] => []
  | fuel + 1, x :: xs => (x :: xs.take (n - 1)) :: chunksOfAux n fuel (xs.drop (n - 1))

/-- Consecutive chunks of at most `n` elements: the groups produced by
`data.groupby(data.index // n)` for the default 0-based range index. -/
def chunksOf (n : Nat) (l : List α) : List (List α) :=
  chunksOfAux n l.length l

/-- The deterministic per-batch asset ID for 0-based batch index `i`
(lines 86 and 105 both build this string with `i+1`). -/
def batchAssetId (layer_name : String) (i : Nat) : String :=
  "projects/ee-ronnyale/assets/" ++ layer_name ++ "_batch_" ++ toString (i + 1)

/-- Line 105: the deterministic list of all expected batch asset IDs. -/
def batch_asset_ids (layer_name : String) (n : Nat) : List String :=
  (List.range n).map (batchAssetId layer_name)

/-- The merged asset ID (line 129). -/
def mergedAssetId (layer_name : String) : String :=
  "projects/ee-ronnyale/assets/" ++ layer_name ++ "_merged"

/-- Python `str.capitalize`: first character uppercased, the rest lowercased
(`layer_name.capitalize()` on line 92). -/
def pyCapitalize (s : String) : String :=
  match s.data with
  | [] => ""
  | c :: cs => String.mk (c.toUpper :: cs.map Char.toLower)

/-- One started export task as recorded in `export_tasks`: the target asset
ID, the task description, and the uploaded feature collection. -/
structure Submission where
  assetId : String
  description : String
  collection : List EEFeature
  deriving DecidableEq

/-- The uploading loop of lines 80-99, iterating over the enumerated batches
with 0-based counter `i`: skip a batch whose deterministic asset ID already
exists, otherwise start an export task for it and record the handle. -/
def submitLoop (ex : String → Bool) (toFC : List ρ → List EEFeature)
    (layer_name : String) : Nat → List (List ρ) → List Submission
  | _, [] => []
  | i, b :: rest =>
    if ex (batchAssetId layer_name i) then
      submitLoop ex toFC layer_name (i + 1) rest
    else
      { assetId := batchAssetId layer_name i
        description := pyCapitalize layer_name ++ " Batch " ++ toString (i + 1)
        collection := toFC b } :: submitLoop ex toFC layer_name (i + 1) rest

/-- The batch uploader: chunk the layer's rows into consecutive batches of
500 and run the submission loop. `toFC` stands for the local
reproject-and-serialize pipeline of lines 81-84 (`to_crs` / `to_json` /
`ee.FeatureCollection`), which is applied per batch. -/
def submitBatches (ex : String → Bool) (toFC : List ρ → List EEFeature)
    (layer_name : String) (data : List ρ) : List Submission :=
  submitLoop ex toFC layer_name 0 (chunksOf 500 data)

/-! ### Collection merger (`merge_collections`, lines 46-64) -/

/-- The merging loop of lines 51-62 over the remaining asset IDs, carrying
the running total `merged_fc` (`none` before the first group). Each step
takes one group of at most 100 IDs, builds the group's union by sequential
pairwise merge, and merges it into the running total. Besides the result it
counts the groups processed (group unions) and the number of
`merged_fc.merge(batch_fc)` calls (cross-group unions). -/
def mergeLoopAux (fetch : String → List EEFeature) :
    Nat → Option (List EEFeature) → List String → Option (List EEFeature) × Nat × Nat
  | 0, acc, _ => (acc, 0, 0)
  | _, acc, [] => (acc, 0, 0)
  | fuel + 1, acc, a :: rest =>
    let batchRest := rest.take 99
    let remaining := rest.drop 99
    let batch_fc := batchRest.foldl (fun f b => f ++ fetch b) (fetch a)
    let acc2 := match acc with
      | none => some batch_fc
      | some m => some (m ++ batch_fc)
    let r := mergeLoopAux fetch fuel acc2 remaining
    (r.1, r.2.1 + 1, r.2.2 + (if acc.isSome then 1 else 0))

/-- `merge_collections(asset_ids, layer_name)` (lines 46-64): `merged_fc`
starts as `None` and the loop runs over groups of 100; with no asset IDs the
loop body never runs and `None` is returned. Every loop step consumes at
least one ID, so `fuel = asset_ids.length` always suffices. -/
def merge_collections (fetch : String → List EEFeature) (asset_ids : List String) :
    Option (List EEFeature) × Nat × Nat :=
  mergeLoopAux fetch asset_ids.length none asset_ids

/-! ### Asset cleanup (lines 138-144) -/

/-- The deletion loop: attempt `ee.data.deleteAsset` on every ID in order,
catching any exception (logging it) and continuing with the next ID. The
returned log pairs each attempted ID with its outcome. -/
def deleteBatchAssets (del : String → Except String Unit) :
    List String → List (String × Except String Unit)
  | [] => []
  | id :: rest =>
    match del id with
    | Except.ok u => (id, Except.ok u) :: deleteBatchAssets del rest
    | Except.error e => (id, Except.error e) :: deleteBatchAssets del rest

/-! ### The whole `process_layer` pipeline (lines 66-146) -/

/-- The task handle for a started submission: its state is the stable final
state reported by the platform for the target asset. -/
def taskOf (finalState : String → String) (s : Submission) : EETask :=
  { state := fun _ => finalState s.assetId
    description := s.description }

/-- `process_layer(layer_name, layer_data)` (lines 66-146). `none` means the
run is still blocked in a polling loop after `fuel` rounds; otherwise the
result is the raised exception or, on success, the filtered merged collection
together with the cleanup log. Calling `.map` on the `None` returned by
`merge_collections` for a zero-batch layer raises an `AttributeError`
(line 109), modelled as that error value. -/
def process_layer (ex : String → Bool) (fetch : String → List EEFeature)
    (finalState : String → String) (del : String → Except String Unit)
    (toFC : List ρ → List EEFeature) (fuel : Nat) (layer_name : String)
    (data : List ρ) :
    Option (Except String (List EEFeature × List (String × Except String Unit))) :=
  match wait_for_tasks ((submitBatches ex toFC layer_name data).map (taskOf finalState)) fuel with
  | none => none
  | some (Except.error m, _) => some (Except.error m)
  | some (Except.ok _, _) =>
    match (merge_collections fetch (batch_asset_ids layer_name (num_batches data.length))).1 with
    | none => some (Except.error "AttributeError: NoneType object has no attribute map")
    | some merged =>
      match wait_for_tasks
          [{ state := fun _ => finalState (mergedAssetId layer_name)
             description := "Merged " ++ pyCapitalize layer_name }] fuel with
      | none => none
      | some (Except.error m, _) => some (Except.error m)
      | some (Except.ok _, _) =>
        some (Except.ok (emptinessFilter merged,
          deleteBatchAssets del (batch_asset_ids layer_name (num_batches data.length))))

/-! ### Helper lemmas -/

/-- With sufficient fuel, concatenating the chunks restores the list. -/
theorem chunksOfAux_flatten (n : Nat) :
    ∀ (fuel : Nat) (l : List α), l.length ≤ fuel →
      (chunksOfAux n fuel l).flatten = l := by
  intro fuel
  induction fuel with
  | zero =>
    intro l h
    rw [List.length_eq_zero.mp (Nat.le_zero.mp h)]
    rfl
  | succ fuel ih =>
    intro l h
    cases l with
    | nil => rfl
    | cons x xs =>
      rw [chunksOfAux]
      simp only [List.flatten_cons, List.cons_append]
      rw [ih (xs.drop (n - 1)) (by simp only [List.length_drop]; simp only [List.length_cons] at h; omega)]
      rw [List.take_append_drop]

/-- Concatenating the consecutive chunks restores the original list. -/
theorem chunksOf_flatten (n : Nat) (l : List α) : (chunksOf n l).flatten = l :=
  chunksOfAux_flatten n l.length l le_rfl

/-- With sufficient fuel, the number of 500-chunks is `ceil(length / 500)`. -/
theorem chunksOfAux_500_length :
    ∀ (fuel : Nat) (l : List α), l.length ≤ fuel →
      (chunksOfAux 500 fuel l).length = num_batches l.length := by
  intro fuel
  induction fuel with
  | zero =>
    intro l h
    rw [List.length_eq_zero.mp (Nat.le_zero.mp h)]
    simp [chunksOfAux, num_batches]
  | succ fuel ih =>
    intro l h
    cases l with
    | nil => simp [chunksOfAux, num_batches]
    | cons x xs =>
      rw [chunksOfAux]
      simp only [List.length_cons] at h
      rw [List.length_cons, ih (xs.drop (500 - 1)) (by simp only [List.length_drop]; omega)]
      simp only [num_batches, List.length_drop, List.length_cons]
      omega

/-- The number of 500-chunks is `ceil(length / 500)`. -/
theorem chunksOf_500_length (l : List α) :
    (chunksOf 500 l).length = num_batches l.length :=
  chunksOfAux_500_length l.length l le_rfl

/-- With sufficient fuel, every 500-chunk is non-empty and at most 500 long. -/
theorem chunksOfAux_500_mem :
    ∀ (fuel : Nat) (l : List α) (b : List α), l.length ≤ fuel →
      b ∈ chunksOfAux 500 fuel l → b ≠ [] ∧ b.length ≤ 500 := by
  intro fuel
  induction fuel with
  | zero =>
    intro l b h hb
    rw [List.length_eq_zero.mp (Nat.le_zero.mp h)] at hb
    cases hb
  | succ fuel ih =>
    intro l b h hb
    cases l with
    | nil => cases hb
    | cons x xs =>
      rw [chunksOfAux] at hb
      simp only [List.length_cons] at h
      rcases List.mem_cons.mp hb with hb | hb
      · subst hb
        refine ⟨by simp, ?_⟩
        have := List.length_take_le (500 - 1) xs
        simp only [List.length_cons]
        omega
      · exact ih (xs.drop (500 - 1)) b (by simp only [List.length_drop]; omega) hb

/-- Every 500-chunk is non-empty and holds at most 500 rows. -/
theorem chunksOf_500_mem (l : List α) (b : List α) (hb : b ∈ chunksOf 500 l) :
    b ≠ [] ∧ b.length ≤ 500 :=
  chunksOfAux_500_mem l.length l b le_rfl hb

/-- Membership in the submission loop started at counter `i`: a submission is
recorded exactly for the chunks whose deterministic asset ID does not exist,
with the asset ID and description built from the chunk's enumeration index. -/
theorem mem_submitLoop (ex : String → Bool) (toFC : List ρ → List EEFeature)
    (layer : String) (i : Nat) (bs : List (List ρ)) (s : Submission) :
    s ∈ submitLoop ex toFC layer i bs ↔
      ∃ j b, bs[j]? = some b ∧ ex (batchAssetId layer (i + j)) = false ∧
        s = { assetId := batchAssetId layer (i + j)
              description := pyCapitalize layer ++ " Batch " ++ toString (i + j + 1)
              collection := toFC b } := by
  induction bs generalizing i with
  | nil => simp [submitLoop]
  | cons b rest ih =>
    rw [submitLoop]
    by_cases hex : ex (batchAssetId layer i) = true
    · rw [if_pos hex, ih]
      constructor
      · rintro ⟨j, b', hj, hexf, hs⟩
        refine ⟨j + 1, b', by simpa using hj, ?_, ?_⟩
        · rw [show i + (j + 1) = i + 1 + j by omega]; exact hexf
        · rw [show i + (j + 1) = i + 1 + j by omega]; exact hs
      · rintro ⟨j, b', hj, hexf, hs⟩
        cases j with
        | zero =>
          simp only [List.getElem?_cons_zero, Option.some.injEq] at hj
          rw [Nat.add_zero] at hexf
          rw [hexf] at hex
          simp at hex
        | succ j =>
          refine ⟨j, b', by simpa using hj, ?_, ?_⟩
          · rw [show i + 1 + j = i + (j + 1) by omega]; exact hexf
          · rw [show i + 1 + j = i + (j + 1) by omega]; exact hs
    · rw [if_neg hex]
      simp only [List.mem_cons, ih]
      constructor
      · rintro (hs | ⟨j, b', hj, hexf, hs⟩)
        · exact ⟨0, b, by simp, by simpa using hex, by simpa using hs⟩
        · refine ⟨j + 1, b', by simpa using hj, ?_, ?_⟩
          · rw [show i + (j + 1) = i + 1 + j by omega]; exact hexf
          · rw [show i + (j + 1) = i + 1 + j by omega]; exact hs
      · rintro ⟨j, b', hj, hexf, hs⟩
        cases j with
        | zero =>
          left
          simp only [List.getElem?_cons_zero, Option.some.injEq] at hj
          subst hj
          simpa using hs
        | succ j =>
          right
          refine ⟨j, b', by simpa using hj, ?_, ?_⟩
          · rw [show i + 1 + j = i + (j + 1) by omega]; exact hexf
          · rw [show i + 1 + j = i + (j + 1) by omega]; exact hs

/-- Every submission recorded by the loop targets an asset ID that the
existence check reported as absent. -/
theorem submitLoop_not_exists (ex : String → Bool) (toFC : List ρ → List EEFeature)
    (layer : String) (i : Nat) (bs : List (List ρ)) (s : Submission)
    (hs : s ∈ submitLoop ex toFC layer i bs) : ex s.assetId = false := by
  induction bs generalizing i with
  | nil => simp [submitLoop] at hs
  | cons b rest ih =>
    rw [submitLoop] at hs
    by_cases hex : ex (batchAssetId layer i) = true
    · rw [if_pos hex] at hs
      exact ih (i + 1) hs
    · rw [if_neg hex] at hs
      rcases List.mem_cons.mp hs with h | h
      · subst h
        simpa using hex
      · exact ih (i + 1) h

/-- The running fold of `batch_fc.merge(ee.FeatureCollection(asset_id))`
concatenates the fetched collections onto the initial one. -/
theorem foldl_merge_eq (fetch : String → List EEFeature) (l : List String)
    (init : List EEFeature) :
    l.foldl (fun f b => f ++ fetch b) init = init ++ (l.map fetch).flatten := by
  induction l generalizing init with
  | nil => simp
  | cons a rest ih => simp [ih, List.append_assoc]

/-- The merging loop with a non-`None` running total appends the
concatenation of all fetched collections and performs one cross-group merge
per group. -/
theorem mergeLoopAux_some (fetch : String → List EEFeature) :
    ∀ (fuel : Nat) (ids : List String), ids.length ≤ fuel →
      ∀ m, mergeLoopAux fetch fuel (some m) ids =
        (some (m ++ (ids.map fetch).flatten),
          (ids.length + 99) / 100, (ids.length + 99) / 100) := by
  intro fuel
  induction fuel with
  | zero =>
    intro ids hlen m
    have : ids = [] := List.length_eq_zero.mp (Nat.le_zero.mp hlen)
    subst this
    simp [mergeLoopAux]
  | succ fuel ih =>
    intro ids hlen m
    cases ids with
    | nil => simp [mergeLoopAux]
    | cons a rest =>
      rw [mergeLoopAux]
      have hrem : (rest.drop 99).length ≤ fuel := by
        simp only [List.length_drop]
        simp only [List.length_cons] at hlen
        omega
      simp only [foldl_merge_eq, Option.isSome_some, if_pos]
      rw [ih (rest.drop 99) hrem]
      have hsplit : (rest.map fetch).flatten =
          ((rest.take 99).map fetch).flatten ++ ((rest.drop 99).map fetch).flatten := by
        conv_lhs => rw [← List.take_append_drop 99 rest]
        rw [List.map_append, List.flatten_append]
      simp only [List.map_cons, List.flatten_cons, hsplit]
      refine Prod.ext ?_ (Prod.ext ?_ ?_) <;>
        simp only [List.append_assoc, List.length_drop, List.length_cons] <;> omega

/-- `merge_collections` on a non-empty ID list: the result is the ordered
concatenation of every fetched collection, with `ceil(K/100)` group unions
and `ceil(K/100) - 1` cross-group unions. -/
theorem merge_collections_cons (fetch : String → List EEFeature) (a : String)
    (rest : List String) :
    merge_collections fetch (a :: rest) =
      (some (((a :: rest).map fetch).flatten),
        ((a :: rest).length + 99) / 100, ((a :: rest).length + 99) / 100 - 1) := by
  rw [merge_collections, List.length_cons, mergeLoopAux]
  simp only [foldl_merge_eq, Option.isSome_none, if_neg, Bool.false_eq_true,
    not_false_eq_true]
  rw [mergeLoopAux_some fetch rest.length (rest.drop 99)
    (by simp only [List.length_drop]; omega)]
  have hsplit : (rest.map fetch).flatten =
      ((rest.take 99).map fetch).flatten ++ ((rest.drop 99).map fetch).flatten := by
    conv_lhs => rw [← List.take_append_drop 99 rest]
    rw [List.map_append, List.flatten_append]
  simp only [List.map_cons, List.flatten_cons, hsplit]
  refine Prod.ext ?_ (Prod.ext ?_ ?_) <;>
    simp only [List.append_assoc, List.length_drop, List.length_cons] <;> omega

/-- Inversion of the polling loop: a returned outcome was produced at a poll
round no earlier than the start, at which every task was terminal, by the
failed-task check. -/
theorem waitGo_some (ts : List EETask) (fuel t : Nat) (res : Except String Unit)
    (t' : Nat) (h : waitGo ts fuel t = some (res, t')) :
    t ≤ t' ∧ allTerminal ts t' = true ∧ res = checkFailed ts t' := by
  induction fuel generalizing t with
  | zero => simp [waitGo] at h
  | succ fuel ih =>
    rw [waitGo] at h
    by_cases hterm : allTerminal ts t = true
    · rw [if_pos hterm] at h
      obtain ⟨h1, h2⟩ := Prod.mk.injEq .. ▸ Option.some.injEq .. ▸ h
      cases h
      exact ⟨le_rfl, hterm, rfl⟩
    · rw [if_neg hterm] at h
      obtain ⟨h1, h2, h3⟩ := ih (t + 1) h
      exact ⟨by omega, h2, h3⟩

/-- The polling loop does return once the tasks are all terminal, given
enough fuel. -/
theorem waitGo_isSome (ts : List EETask) (t0 : Nat)
    (hterm : allTerminal ts t0 = true) :
    ∀ fuel t, t ≤ t0 → t0 < t + fuel → (waitGo ts fuel t).isSome = true := by
  intro fuel
  induction fuel with
  | zero => intro t h1 h2; omega
  | succ fuel ih =>
    intro t h1 h2
    rw [waitGo]
    by_cases h : allTerminal ts t = true
    · rw [if_pos h]; rfl
    · rw [if_neg h]
      have hne : t ≠ t0 := fun he => h (he ▸ hterm)
      exact ih (t + 1) (by omega) (by omega)

/-- The failed-task check raises exactly when some task's state is FAILED,
and the raised message aggregates the failed tasks' descriptions. -/
theorem checkFailed_spec (ts : List EETask) (t : Nat) :
    ((∃ task ∈ ts, task.state t = "FAILED") ↔
      ∃ m, checkFailed ts t = Except.error m) ∧
    (∀ m, checkFailed ts t = Except.error m →
      m = "The following tasks failed: " ++ String.intercalate ", "
        ((ts.filter fun task => task.state t == "FAILED").map EETask.description)) := by
  rw [checkFailed]
  by_cases hemp : (ts.filter fun task => task.state t == "FAILED").isEmpty = true
  · simp only [hemp, if_pos]
    constructor
    · constructor
      · rintro ⟨task, hmem, hst⟩
        have := List.filter_eq_nil_iff.mp (List.isEmpty_iff.mp hemp) task hmem
        simp [hst] at this
      · rintro ⟨m, hm⟩
        cases hm
    · intro m hm
      cases hm
  · simp only [hemp, if_neg, Bool.false_eq_true, not_false_eq_true]
    constructor
    · constructor
      · intro _
        exact ⟨_, rfl⟩
      · intro _
        have hne : (ts.filter fun task => task.state t == "FAILED") ≠ [] := by
          intro he
          rw [he] at hemp
          simp at hemp
        obtain ⟨task, hmem⟩ := List.exists_mem_of_ne_nil _ hne
        have := List.mem_filter.mp hmem
        exact ⟨task, this.1, by simpa using this.2⟩
    · intro m hm
      exact (Except.error.injEq .. ▸ hm).symm

/-- Every submission is a chunk whose asset ID the existence check reported
absent, exported under the ID and description of its enumeration index. -/
theorem mem_submitBatches (ex : String → Bool) (toFC : List ρ → List EEFeature)
    (layer : String) (data : List ρ) (s : Submission) :
    s ∈ submitBatches ex toFC layer data ↔
      ∃ j b, (chunksOf 500 data)[j]? = some b ∧ ex (batchAssetId layer j) = false ∧
        s = { assetId := batchAssetId layer j
              description := pyCapitalize layer ++ " Batch " ++ toString (j + 1)
              collection := toFC b } := by
  rw [submitBatches, mem_submitLoop]
  simp only [Nat.zero_add]

/-- If every expected batch asset already exists, the uploader records no
task handle at all. -/
theorem submitBatches_eq_nil_of_all_exist (ex : String → Bool)
    (toFC : List ρ → List EEFeature) (layer : String) (data : List ρ)
    (hex : ∀ id ∈ batch_asset_ids layer (num_batches data.length), ex id = true) :
    submitBatches ex toFC layer data = [] := by
  by_contra hne
  obtain ⟨s, hs⟩ := List.exists_mem_of_ne_nil _ hne
  obtain ⟨j, b, hj, hexf, hsdef⟩ := (mem_submitBatches ex toFC layer data s).mp hs
  have hjlt : j < (chunksOf 500 data).length := by
    by_contra hge
    rw [List.getElem?_eq_none (by omega)] at hj
    cases hj
  rw [chunksOf_500_length] at hjlt
  have hmem : batchAssetId layer j ∈ batch_asset_ids layer (num_batches data.length) :=
    List.mem_map_of_mem _ (List.mem_range.mpr hjlt)
  rw [hex _ hmem] at hexf
  cases hexf

/-- The deletion loop records, for each ID in order, the outcome of deleting
exactly that ID. -/
theorem deleteBatchAssets_eq_map (del : String → Except String Unit) (l : List String) :
    deleteBatchAssets del l = l.map fun a => (a, del a) := by
  induction l with
  | nil => rfl
  | cons id rest ih =>
    rw [deleteBatchAssets.eq_def]
    cases h : del id <;> simp [ih, h]

/-- The waiter called on an empty task list returns on the first poll with no
sleeps and no error, for any positive fuel. -/
theorem wait_for_tasks_nil (fuel : Nat) (h : 0 < fuel) :
    wait_for_tasks [] fuel = some (Except.ok (), 0) := by
  cases fuel with
  | zero => omega
  | succ k => rfl

end ExportLayers

namespace ExportLayers

/-! ### The claims -/

/-- C1: for every layer of `N` rows processed with the fixed batch size 500,
the uploader partitions the rows into consecutive non-empty batches of at
most 500 rows; the deterministic list of expected batch asset IDs has exactly
`ceil(N/500)` entries, its `i`-th entry (0-based) being
`projects/ee-ronnyale/assets/<layer>_batch_<i+1>`; and every submitted batch
is exported under the asset ID built from its 1-based batch index, carrying
that batch's uploaded collection. -/
theorem c1_uploader_batching (ex : String → Bool) (toFC : List ρ → List EEFeature)
    (layer : String) (data : List ρ) :
    (chunksOf 500 data).flatten = data
    ∧ (∀ b ∈ chunksOf 500 data, b ≠ [] ∧ b.length ≤ 500)
    ∧ (chunksOf 500 data).length = num_batches data.length
    ∧ (batch_asset_ids layer (num_batches data.length)).length = num_batches data.length
    ∧ (∀ i, i < num_batches data.length →
        (batch_asset_ids layer (num_batches data.length))[i]? =
          some ("projects/ee-ronnyale/assets/" ++ layer ++ "_batch_" ++ toString (i + 1)))
    ∧ (∀ s ∈ submitBatches ex toFC layer data, ∃ i b,
        (chunksOf 500 data)[i]? = some b ∧ s.assetId = batchAssetId layer i ∧
        s.collection = toFC b) := by
  refine ⟨chunksOf_flatten 500 data, chunksOf_500_mem data, chunksOf_500_length data,
    by simp [batch_asset_ids], ?_, ?_⟩
  · intro i hi
    rw [batch_asset_ids, List.getElem?_map, List.getElem?_range hi]
    rfl
  · intro s hs
    obtain ⟨j, b, hj, _, hsdef⟩ := (mem_submitBatches ex toFC layer data s).mp hs
    exact ⟨j, b, hj, by rw [hsdef], by rw [hsdef]⟩

/-- C1 witness at a concrete 3-row layer (one batch). -/
theorem c1_uploader_batching_witness :
    (chunksOf 500 [10, 20, 30]).flatten = ([10, 20, 30] : List Nat)
    ∧ (batch_asset_ids "industrials" (num_batches 3))[0]? =
        some ("projects/ee-ronnyale/assets/" ++ "industrials" ++ "_batch_" ++ toString (0 + 1)) :=
  ⟨(c1_uploader_batching (fun _ => false) (fun _ => []) "industrials" [10, 20, 30]).1,
    (c1_uploader_batching (fun _ => false) (fun _ => []) "industrials"
      [10, 20, 30]).2.2.2.2.1 0 (by decide)⟩

/-- C2: idempotence of the uploader. Every recorded task handle targets an
asset ID whose existence check returned false; hence no task is submitted for
a batch whose deterministic asset ID already exists, and if every expected
batch asset already exists the uploader submits zero tasks. -/
theorem c2_uploader_idempotent (ex : String → Bool) (toFC : List ρ → List EEFeature)
    (layer : String) (data : List ρ) :
    (∀ s ∈ submitBatches ex toFC layer data, ex s.assetId = false)
    ∧ (∀ i, ex (batchAssetId layer i) = true →
        ∀ s ∈ submitBatches ex toFC layer data, s.assetId ≠ batchAssetId layer i)
    ∧ ((∀ id ∈ batch_asset_ids layer (num_batches data.length), ex id = true) →
        submitBatches ex toFC layer data = []) := by
  have hfalse : ∀ s ∈ submitBatches ex toFC layer data, ex s.assetId = false :=
    fun s hs => submitLoop_not_exists ex toFC layer 0 _ s hs
  refine ⟨hfalse, ?_, submitBatches_eq_nil_of_all_exist ex toFC layer data⟩
  intro i hi s hs heq
  have hsf := hfalse s hs
  rw [heq, hi] at hsf
  cases hsf

/-- C2 witness: with both expected assets already existing for a 600-row
layer, zero tasks are submitted. -/
theorem c2_uploader_idempotent_witness :
    submitBatches (fun _ => true) (fun _ => []) "industrials"
      (List.replicate 600 (0 : Nat)) = [] :=
  (c2_uploader_idempotent (fun _ => true) (fun _ => []) "industrials"
    (List.replicate 600 (0 : Nat))).2.2 (fun _ _ => rfl)

/-- C3: when the waiter returns, every task's state at the returning poll
round is terminal (COMPLETED, FAILED or CANCELLED); it raises an error iff
some task's state is FAILED at that round; the raised message names every
failed task's description aggregated into one message; and when no task is
FAILED (all COMPLETED or a mix with CANCELLED) it returns without error. -/
theorem c3_waiter (ts : List EETask) (fuel : Nat) (res : Except String Unit)
    (t : Nat) (h : wait_for_tasks ts fuel = some (res, t)) :
    (∀ task ∈ ts, task.state t ∈ terminalStates)
    ∧ ((∃ task ∈ ts, task.state t = "FAILED") ↔ ∃ m, res = Except.error m)
    ∧ (∀ m, res = Except.error m →
        m = "The following tasks failed: " ++ String.intercalate ", "
          ((ts.filter fun task => task.state t == "FAILED").map EETask.description))
    ∧ ((∀ task ∈ ts, task.state t ≠ "FAILED") → res = Except.ok ()) := by
  obtain ⟨-, hterm, hres⟩ := waitGo_some ts fuel 0 res t h
  obtain ⟨hiff, hmsg⟩ := checkFailed_spec ts t
  refine ⟨?_, ?_, ?_, ?_⟩
  · intro task htask
    have := List.all_eq_true.mp hterm task htask
    exact of_decide_eq_true this
  · rw [hres]
    exact hiff
  · intro m hm
    exact hmsg m (hres ▸ hm)
  · intro hnf
    rw [hres, checkFailed]
    have : (ts.filter fun task => task.state t == "FAILED") = [] := by
      rw [List.filter_eq_nil_iff]
      intro task htask
      simpa using hnf task htask
    rw [this]
    rfl

/-- C3 witness: a single FAILED task yields the aggregated error message. -/
theorem c3_waiter_witness :
    "The following tasks failed: taskA" =
      "The following tasks failed: " ++ String.intercalate ", "
        ((([⟨fun _ => "FAILED", "taskA"⟩] : List EETask).filter
          fun task => task.state 0 == "FAILED").map EETask.description) :=
  (c3_waiter [⟨fun _ => "FAILED", "taskA"⟩] 1
    (Except.error "The following tasks failed: taskA") 0 rfl).2.2.1 _ rfl

/-- C4: for every non-empty list of `K` asset IDs the merger returns the
ordered concatenation of all fetched collections (no feature loss), issuing
exactly `ceil(K/100)` group unions and `ceil(K/100) - 1` cross-group
unions. -/
theorem c4_merger (fetch : String → List EEFeature) (ids : List String)
    (h : ids ≠ []) :
    (merge_collections fetch ids).1 = some ((ids.map fetch).flatten)
    ∧ (merge_collections fetch ids).2.1 = (ids.length + 99) / 100
    ∧ (merge_collections fetch ids).2.2 = (ids.length + 99) / 100 - 1
    ∧ (∀ id ∈ ids, ∀ f ∈ fetch id, ∃ fc,
        (merge_collections fetch ids).1 = some fc ∧ f ∈ fc) := by
  obtain ⟨a, rest, rfl⟩ := List.exists_cons_of_ne_nil h
  rw [merge_collections_cons]
  refine ⟨rfl, rfl, rfl, ?_⟩
  intro id hid f hf
  refine ⟨_, rfl, ?_⟩
  rw [List.mem_flatten]
  exact ⟨fetch id, List.mem_map_of_mem fetch hid, hf⟩

/-- C4 witness at two asset IDs (one group, one group union, no cross-group
union). -/
theorem c4_merger_witness :
    (merge_collections (fun _ => [⟨[[7]], []⟩]) ["a", "b"]).1 =
      some (((["a", "b"]).map (fun _ => [⟨[[7]], []⟩])).flatten) :=
  (c4_merger (fun _ => [⟨[[7]], []⟩]) ["a", "b"] (by decide)).1

/-- C5: the tagging pass sets the `empty_buffer` property of every feature to
1 when its geometry's coordinate list is empty and to 0 otherwise, leaving
the coordinates themselves unchanged, and the filtered collection consists of
exactly the tagged versions of the features with a non-empty coordinate list
(those whose flag equals 0). -/
theorem c5_emptiness_filter (fc : List EEFeature) :
    (∀ f ∈ fc, getProp (check_empty_coordinates f) "empty_buffer" =
        some (if f.coordinates.length = 0 then 1 else 0)
      ∧ (check_empty_coordinates f).coordinates = f.coordinates)
    ∧ emptinessFilter fc =
        (fc.filter fun f => !f.coordinates.isEmpty).map check_empty_coordinates
    ∧ (∀ f ∈ emptinessFilter fc, getProp f "empty_buffer" = some 0) := by
  have htag : ∀ f : EEFeature, getProp (check_empty_coordinates f) "empty_buffer" =
      some (if f.coordinates.length = 0 then 1 else 0) := by
    intro f
    simp [check_empty_coordinates, getProp, List.lookup]
  have hkeep : ∀ f : EEFeature,
      (getProp (check_empty_coordinates f) "empty_buffer" == some 0) =
        !f.coordinates.isEmpty := by
    intro f
    rw [htag f]
    cases hc : f.coordinates with
    | nil => simp
    | cons c cs => simp
  refine ⟨fun f _ => ⟨htag f, rfl⟩, ?_, ?_⟩
  · rw [emptinessFilter]
    induction fc with
    | nil => rfl
    | cons f rest ih =>
      simp only [List.map_cons, List.filter_cons, hkeep f]
      cases hc : f.coordinates.isEmpty with
      | false => simp [ih]
      | true => simp [ih]
  · intro f hf
    rw [emptinessFilter] at hf
    have := (List.mem_filter.mp hf).2
    simpa using this

/-- C5 witness: a feature with an empty coordinate list is tagged 1 and one
with a non-empty list is tagged 0. -/
theorem c5_emptiness_filter_witness :
    getProp (check_empty_coordinates ⟨[], [("a", 5)]⟩) "empty_buffer" =
      some (if ([] : List (List Int)).length = 0 then 1 else 0)
    ∧ getProp (check_empty_coordinates ⟨[[3]], []⟩) "empty_buffer" =
      some (if ([[3]] : List (List Int)).length = 0 then 1 else 0) :=
  ⟨((c5_emptiness_filter [⟨[], [("a", 5)]⟩]).1 _ (by simp)).1,
    ((c5_emptiness_filter [⟨[[3]], []⟩]).1 _ (by simp)).1⟩

/-- C6: the sanitizer turns a 3D polygon (resp. multipolygon) into the 2D
geometry of the same type obtained by dropping the z component of every
coordinate pointwise, preserving ring order and hence winding, the number of
interior rings, and every ring's vertex count (the resulting coordinates
being pairs, every tuple has exactly 2 components); every geometry without a
z dimension, and every unsupported geometry type, is returned unchanged, and
the function is total (no error). -/
theorem c6_remove_z (g : PyGeometry) :
    (∀ p, g = PyGeometry.polygon3 p →
      remove_z g = PyGeometry.polygon2 (dropZPoly p)
      ∧ (dropZPoly p).exterior.length = p.exterior.length
      ∧ (dropZPoly p).interiors.length = p.interiors.length
      ∧ (∀ i : Nat, (dropZPoly p).exterior[i]? = (p.exterior[i]?).map dropZ)
      ∧ (∀ j : Nat, (dropZPoly p).interiors[j]? = (p.interiors[j]?).map (List.map dropZ)))
    ∧ (∀ ps, g = PyGeometry.multiPolygon3 ps →
      remove_z g = PyGeometry.multiPolygon2 (ps.map dropZPoly)
      ∧ (ps.map dropZPoly).length = ps.length
      ∧ (∀ k : Nat, (ps.map dropZPoly)[k]? = (ps[k]?).map dropZPoly))
    ∧ (g.has_z = false → remove_z g = g)
    ∧ (∀ tag hz, g = PyGeometry.other tag hz → remove_z g = g) := by
  refine ⟨?_, ?_, ?_, ?_⟩
  · rintro p rfl
    refine ⟨rfl, by simp [dropZPoly], by simp [dropZPoly], ?_, ?_⟩
    · intro i
      simp [dropZPoly, List.getElem?_map]
    · intro j
      simp [dropZPoly, List.getElem?_map]
  · rintro ps rfl
    refine ⟨rfl, by simp, ?_⟩
    intro k
    simp [List.getElem?_map]
  · intro hz
    cases g with
    | polygon2 p => rfl
    | polygon3 p => simp [PyGeometry.has_z] at hz
    | multiPolygon2 ps => rfl
    | multiPolygon3 ps => simp [PyGeometry.has_z] at hz
    | other tag z => rfl
  · rintro tag hz rfl
    rfl

/-- C6 witness: a concrete 3D polygon with one hole is flattened to 2D. -/
theorem c6_remove_z_witness :
    remove_z (PyGeometry.polygon3 ⟨[(1, 2, 3), (4, 5, 6)], [[(7, 8, 9)]]⟩) =
      PyGeometry.polygon2 (dropZPoly ⟨[(1, 2, 3), (4, 5, 6)], [[(7, 8, 9)]]⟩) :=
  ((c6_remove_z (PyGeometry.polygon3 ⟨[(1, 2, 3), (4, 5, 6)], [[(7, 8, 9)]]⟩)).1
    _ rfl).1

/-- C7: the cleanup loop attempts to delete every ID of the deterministic
batch asset ID list in order, each attempt's outcome depending only on its
own ID (a failed deletion is caught and the remaining deletions still run,
the loop returning a full log instead of propagating any error); and in a
successful `process_layer` run the cleanup log is exactly this loop applied
to the deterministic list. -/
theorem c7_cleanup (del : String → Except String Unit) (layer : String) (n : Nat) :
    (deleteBatchAssets del (batch_asset_ids layer n)).map Prod.fst =
      batch_asset_ids layer n
    ∧ (∀ i : Nat, (deleteBatchAssets del (batch_asset_ids layer n))[i]? =
        ((batch_asset_ids layer n)[i]?).map fun a => (a, del a))
    ∧ (∀ (ex : String → Bool) (fetch : String → List EEFeature)
        (finalState : String → String) (toFC : List ρ → List EEFeature)
        (fuel : Nat) (data : List ρ)
        (out : List EEFeature × List (String × Except String Unit)),
        process_layer ex fetch finalState del toFC fuel layer data =
          some (Except.ok out) →
        out.2 = deleteBatchAssets del (batch_asset_ids layer (num_batches data.length))) := by
  refine ⟨?_, ?_, ?_⟩
  · rw [deleteBatchAssets_eq_map, List.map_map]
    simp [Function.comp_def]
  · intro i
    rw [deleteBatchAssets_eq_map, List.getElem?_map]
  · intro ex fetch finalState toFC fuel data out h
    rw [process_layer] at h
    split at h
    · cases h
    · cases h
    · split at h
      · cases h
      · split at h
        · cases h
        · cases h
        · rw [Option.some.injEq, Except.ok.injEq] at h
          rw [← h]

/-- C7 witness: a one-row layer processed end to end with every deletion
failing still logs an attempt for the single expected batch asset. -/
theorem c7_cleanup_witness :
    (([⟨[[0]], [("empty_buffer", 0)]⟩],
        [("projects/ee-ronnyale/assets/industrials_batch_1",
          (Except.error "denied" : Except String Unit))]) :
      List EEFeature × List (String × Except String Unit)).2 =
      deleteBatchAssets (fun _ => Except.error "denied")
        (batch_asset_ids "industrials" (num_batches 1)) :=
  (c7_cleanup (fun _ => Except.error "denied") "industrials" 1).2.2
    (fun _ => false) (fun _ => [⟨[[0]], []⟩]) (fun _ => "COMPLETED")
    (fun _ : List Nat => [⟨[[0]], []⟩]) 1 [0] _ rfl

/-- C8: the asset-existence check returns true exactly when the remote probe
succeeds and false exactly when the probe raises an error, so a probe failure
never propagates and is treated as "does not exist". -/
theorem c8_assets_exists (probe : String → Except String String) (id : String) :
    (assets_exists probe id = true ↔ ∃ a, probe id = Except.ok a)
    ∧ (assets_exists probe id = false ↔ ∃ e, probe id = Except.error e) := by
  rw [assets_exists]
  cases h : probe id with
  | ok a => simp
  | error e => simp

/-- C9: the waiter invoked on an empty task list returns on the very first
poll, with zero sleeps and no error; and in a re-run where every expected
batch asset already exists the uploader records zero task handles, so the
wait step is exactly that empty-list call. -/
theorem c9_wait_empty (fuel : Nat) (hf : 0 < fuel) (ex : String → Bool)
    (toFC : List ρ → List EEFeature) (finalState : String → String)
    (layer : String) (data : List ρ)
    (hex : ∀ id ∈ batch_asset_ids layer (num_batches data.length), ex id = true) :
    wait_for_tasks [] fuel = some (Except.ok (), 0)
    ∧ (submitBatches ex toFC layer data).map (taskOf finalState) = []
    ∧ wait_for_tasks ((submitBatches ex toFC layer data).map (taskOf finalState))
        fuel = some (Except.ok (), 0) := by
  have hnil := submitBatches_eq_nil_of_all_exist ex toFC layer data hex
  rw [hnil]
  exact ⟨wait_for_tasks_nil fuel hf, rfl, wait_for_tasks_nil fuel hf⟩

/-- C9 witness: concrete all-assets-exist re-run of a 2-row layer. -/
theorem c9_wait_empty_witness :
    wait_for_tasks [] 1 = some (Except.ok (), 0)
    ∧ (submitBatches (fun _ => true) (fun _ => []) "industrials"
        ([5, 6] : List Nat)).map (taskOf fun _ => "COMPLETED") = []
    ∧ wait_for_tasks ((submitBatches (fun _ => true) (fun _ => [])
        "industrials" ([5, 6] : List Nat)).map (taskOf fun _ => "COMPLETED")) 1 =
      some (Except.ok (), 0) :=
  c9_wait_empty 1 (by decide) (fun _ => true) (fun _ => []) (fun _ => "COMPLETED")
    "industrials" [5, 6] (fun _ _ => rfl)

/-- C10: the merger called on an empty asset ID list returns the sentinel
`None` instead of a collection, and consequently processing a zero-row layer
reaches the emptiness-filter step with no collection to map over and fails
there with an attribute error rather than completing. -/
theorem c10_merge_nil (fetch : String → List EEFeature) :
    (merge_collections fetch []).1 = none
    ∧ ∀ (ex : String → Bool) (finalState : String → String)
        (del : String → Except String Unit) (toFC : List ρ → List EEFeature)
        (fuel : Nat) (layer : String), 0 < fuel →
        process_layer ex fetch finalState del toFC fuel layer ([] : List ρ) =
          some (Except.error "AttributeError: NoneType object has no attribute map") := by
  refine ⟨rfl, ?_⟩
  intro ex finalState del toFC fuel layer hf
  cases fuel with
  | zero => omega
  | succ k =>
    unfold process_layer
    rw [show num_batches (List.length ([] : List ρ)) = 0 from by simp [num_batches]]
    rfl

/-- C10 witness: a concrete zero-row run fails with the attribute error. -/
theorem c10_merge_nil_witness :
    process_layer (fun _ => false) (fun _ => []) (fun _ => "COMPLETED")
      (fun _ => Except.ok ()) (fun _ : List Nat => []) 1 "industrials" [] =
      some (Except.error "AttributeError: NoneType object has no attribute map") :=
  (c10_merge_nil (fun _ => [])).2 (fun _ => false) (fun _ => "COMPLETED")
    (fun _ => Except.ok ()) (fun _ : List Nat => []) 1 "industrials" (by decide)

end ExportLayers
